import Mathlib

/-!
Verification of the twikoo-backup worker (`src/index.ts`) against its
natural-language specification.

The development shallowly embeds the parts of the source the claims are
about:

* a model of JSON values, of the `JSON.stringify` serialisation used at
  line 71, and of untyped JavaScript property access (`data.code`,
  `data.message`, `data.data`, lines 61-64);
* the JavaScript string functions the source uses (`parseInt`, `trim`,
  `split`, `startsWith`/`substring`, `slice`), reimplemented over
  character lists because they must stay executable inside proofs;
* the D1 table `comments_backup` as a list of rows plus the
  auto-increment counter, with the three SQL statements of the workflow
  (`INSERT`, the `DELETE ... NOT IN (SELECT id ORDER BY id DESC LIMIT ?)`
  prune, `SELECT ... WHERE id = ?`) as list functions;
* the workflow `TwikooCommentBackupWorkflow.run` (lines 26-91) as a pure
  function from the network outcome, the configuration and the starting
  store to a result and a final store;
* the HTTP handlers for `/list`, `/download/` and `/backup`
  (lines 378-434) including the cookie check.

Network input is abstracted as the outcome the `fetch` call produced: a
network-level failure carrying a message, or a response with its `ok`
flag, status, status text, raw body text and (when the body is valid
JSON) its parsed JSON value.
-/

/-! ## JSON values and JavaScript property access -/

/-- Model of a JSON value as produced by `res.json()`. -/
inductive Json where
  | null
  | bool (b : Bool)
  | num (n : Int)
  | str (s : String)
  | arr (xs : List Json)
  | obj (fs : List (String × Json))

/-- Lookup of a key in a JSON object field list (first occurrence wins;
parsed JSON objects have distinct keys). -/
def getField : List (String × Json) → String → Option Json
  | [], _ => none
  | (k, v) :: rest, key => if k = key then some v else getField rest key

/-- JavaScript property access `v.key`. Accessing a property of `null`
throws a TypeError (`none`); on any other value it evaluates to the
property value, or to `undefined` (`some none`) when the value is not an
object or lacks the key. -/
def jsGetProp : Json → String → Option (Option Json)
  | .null, _ => none
  | .obj fs, key => some (getField fs key)
  | _, _ => some none

mutual
/-- Model of `JSON.stringify` (source line 71). Control-character
escaping inside string payloads is elided; the claims only compare
serialised payloads with each other, always through this one function. -/
def Json.stringify : Json → String
  | .null => "null"
  | .bool b => if b then "true" else "false"
  | .num n => toString n
  | .str s => "\"" ++ s ++ "\""
  | .arr xs => "[" ++ stringifyArr xs ++ "]"
  | .obj fs => "\x7b" ++ stringifyObj fs ++ "\x7d"

/-- Comma-separated serialisation of array elements. -/
def stringifyArr : List Json → String
  | [] => ""
  | [x] => Json.stringify x
  | x :: y :: xs => Json.stringify x ++ "," ++ stringifyArr (y :: xs)

/-- Comma-separated serialisation of object fields. -/
def stringifyObj : List (String × Json) → String
  | [] => ""
  | [(k, v)] => "\"" ++ k ++ "\":" ++ Json.stringify v
  | (k, v) :: f :: fs => "\"" ++ k ++ "\":" ++ Json.stringify v ++ "," ++ stringifyObj (f :: fs)
end

/-! ## JavaScript string primitives

The Lean core string functions do not reduce inside the kernel, so the
JavaScript operations the source uses are reimplemented over character
lists. -/

/-- Whitespace test used by `parseInt` and `String.prototype.trim`. -/
def isWsChar (c : Char) : Bool :=
  c == ' ' || c == '\t' || c == '\n' || c == '\r' || c == '\x0b' || c == '\x0c'

/-- Value of a hexadecimal digit. -/
def hexVal (c : Char) : Nat :=
  if c.isDigit then c.toNat - 48
  else if 'a' ≤ c then c.toNat - 87
  else c.toNat - 55

/-- Hexadecimal digit test. -/
def isHexDigitChar (c : Char) : Bool :=
  c.isDigit || ('a' ≤ c && c ≤ 'f') || ('A' ≤ c && c ≤ 'F')

/-- Longest leading run of decimal digits, `none` when empty
(`parseInt` yields `NaN` then). -/
def decRun (cs : List Char) : Option Nat :=
  let ds := cs.takeWhile Char.isDigit
  if ds.isEmpty then none
  else some (ds.foldl (fun a c => a * 10 + (c.toNat - 48)) 0)

/-- Longest leading run of hexadecimal digits, `none` when empty. -/
def hexRun (cs : List Char) : Option Nat :=
  let ds := cs.takeWhile isHexDigitChar
  if ds.isEmpty then none
  else some (ds.foldl (fun a c => a * 16 + hexVal c) 0)

/-- Digit-run part of `parseInt` with no radix argument: a `0x`/`0X`
prefix switches to hexadecimal, otherwise decimal. -/
def parseDigitsRun : List Char → Option Nat
  | '0' :: 'x' :: rest => hexRun rest
  | '0' :: 'X' :: rest => hexRun rest
  | rest => decRun rest

/-- Model of JavaScript `parseInt(s)` (no radix argument): skip leading
whitespace, read an optional sign, then the longest digit run; `none`
models `NaN`. Trailing garbage is ignored, as in JavaScript. -/
def jsParseInt (s : String) : Option Int :=
  match s.toList.dropWhile isWsChar with
  | '-' :: rest => (parseDigitsRun rest).map (fun n => -(n : Int))
  | '+' :: rest => (parseDigitsRun rest).map (fun n => (n : Int))
  | rest => (parseDigitsRun rest).map (fun n => (n : Int))

/-- String an environment variable presents to `parseInt`: an unset
binding is `undefined`, which `parseInt` coerces to the string
`"undefined"`. -/
def envString : Option String → String
  | none => "undefined"
  | some s => s

/-- Source line 28: `const keepDays = parseInt(BACKUP_KEEP_DAYS) || 3`.
Both `NaN` and `0` are falsy, so they fall back to `3`; every other
parsed value, including negative ones, is kept. -/
def keepDaysOf (backupKeepDays : Option String) : Int :=
  match jsParseInt (envString backupKeepDays) with
  | none => 3
  | some v => if v = 0 then 3 else v

/-- Source line 29: `new Date().toISOString().slice(0, 10)` applied to
the ISO timestamp of the start of the run (ISO timestamps are ASCII, so
`slice` is a 10-character prefix). -/
def dateStrOf (iso : String) : String :=
  (iso.toList.take 10).asString

/-! ## The D1 store -/

/-- Row of the `comments_backup` table. -/
structure BackupRow where
  id : Nat
  date : String
  content : String
deriving DecidableEq

/-- The `comments_backup` table: its rows plus the auto-increment
counter that assigns the next `id`. -/
structure Store where
  rows : List BackupRow
  nextId : Nat
deriving DecidableEq

/-- Source lines 69-71: `INSERT INTO comments_backup (date, content)
VALUES (?, ?)`; the store assigns the next auto-increment id. -/
def insertRow (s : Store) (date content : String) : Store :=
  { rows := s.rows ++ [⟨s.nextId, date, content⟩], nextId := s.nextId + 1 }

/-- Body of the `save to D1` step (source lines 68-72), a closure over
the `dateStr` and `comments` captured at run start. -/
def saveToD1 (dateStr content : String) (s : Store) : Store :=
  insertRow s dateStr content

/-- The ids of the rows in descending order: `SELECT id FROM
comments_backup ORDER BY id DESC`. -/
def idsDesc (rows : List BackupRow) : List Nat :=
  (rows.map BackupRow.id).insertionSort (· ≥ ·)

/-- Source lines 78-81: `SELECT id FROM comments_backup ORDER BY id DESC
LIMIT ?` bound to `keepDays`. SQLite treats a negative `LIMIT` as
unlimited. -/
def selectIdsLimit (rows : List BackupRow) (k : Int) : List Nat :=
  if k < 0 then idsDesc rows else (idsDesc rows).take k.toNat

/-- Source lines 75-82, the `clean D1` step: `DELETE FROM comments_backup
WHERE id NOT IN (SELECT id FROM comments_backup ORDER BY id DESC LIMIT ?)`.
The surviving rows are those whose id is in the selected list. -/
def cleanD1 (rows : List BackupRow) (k : Int) : List BackupRow :=
  rows.filter (fun r => decide (r.id ∈ selectIdsLimit rows k))

/-! ## The fetch step -/

/-- An HTTP response as the `fetch comments` step observes it: the `ok`
flag, the status code and text, the raw body text, and the parsed JSON
value when the body parses (`parsed = none` models a `res.json()`
failure). -/
structure HttpResponse where
  ok : Bool
  status : Nat
  statusText : String
  body : String
  parsed : Option Json

/-- Outcome of the `fetch(TWIKOO_URL, ...)` call at lines 42-46: either a
network-level failure with its message, or a response. -/
inductive NetOutcome where
  | netFail (msg : String)
  | resp (r : HttpResponse)

/-- Failure classification of the `fetch comments` step (source lines
34-65). The constructor names follow the taxonomy of the specification;
in the source each is a distinct `throw new Error(...)` site.
`nullAccess` covers the TypeError thrown when the parsed body is JSON
`null` and the code dereferences `data.code`. -/
inductive FetchError where
  | transportError (msg : String)
  | remoteHttpError (status : Nat) (statusText : String) (body : String)
  | malformedResponseError (body : String)
  | remoteApiError (code : Option Json) (message : Option Json)
  | nullAccess

/-- Test for the JavaScript comparison `data.code !== 0` (source line
61), phrased positively: `isCodeZero c` holds exactly when the property
value is the number `0`. -/
def isCodeZero : Option Json → Bool
  | some (.num 0) => true
  | _ => false

/-- The `fetch comments` step (source lines 34-65): classify the network
outcome in the order of the source and on success return `data.data`.
The returned payload is `Option Json` because `data.data` is `undefined`
when the key is absent. -/
def fetchComments (net : NetOutcome) : Except FetchError (Option Json) :=
  match net with
  | .netFail msg => .error (.transportError msg)
  | .resp r =>
    if r.ok then
      match r.parsed with
      | none => .error (.malformedResponseError r.body)
      | some data =>
        match jsGetProp data "code" with
        | none => .error .nullAccess
        | some codeVal =>
          if isCodeZero codeVal then
            match jsGetProp data "data" with
            | none => .error .nullAccess
            | some payload => .ok payload
          else
            match jsGetProp data "message" with
            | none => .error .nullAccess
            | some m => .error (.remoteApiError codeVal m)
    else .error (.remoteHttpError r.status r.statusText r.body)

/-! ## The workflow run -/

/-- How a run fails: the fetch step threw (after exhausting its
retries), or the persist step threw because `JSON.stringify(undefined)`
is `undefined` and D1 rejects an `undefined` binding. -/
inductive RunFailure where
  | fetchFailed (e : FetchError)
  | persistFailed

/-- `TwikooCommentBackupWorkflow.run` (source lines 26-91) as a function
of the fetch outcome, the raw `BACKUP_KEEP_DAYS` configuration string,
the ISO timestamp read from the clock once at run start (line 29), and
the store. It returns the value the run returns (the object literal of
line 85, modelled as its key-value list) or the rethrown failure, paired
with the final store. A failure leaves the store untouched because the
fetch step runs no SQL. -/
def runBackup (net : NetOutcome) (backupKeepDays : Option String)
    (startIso : String) (store : Store) :
    Except RunFailure (List (String × Json)) × Store :=
  let keepDays := keepDaysOf backupKeepDays
  let dateStr := dateStrOf startIso
  match fetchComments net with
  | .error e => (.error (.fetchFailed e), store)
  | .ok comments =>
    match comments with
    | none => (.error .persistFailed, store)
    | some j =>
      let s1 := saveToD1 dateStr (Json.stringify j) store
      let s2 := { s1 with rows := cleanD1 s1.rows keepDays }
      (.ok [("status", .str "success"), ("date", .str dateStr), ("savedRows", .num 1)], s2)

/-- The run under an explicit clock: `clock n` is what
`new Date().toISOString()` would return at the n-th read. The source
reads the clock exactly once, at line 29 before any step, and no step
body contains a clock read, so only `clock 0` is ever consulted. -/
def runBackupClocked (clock : Nat → String) (net : NetOutcome)
    (backupKeepDays : Option String) (store : Store) :
    Except RunFailure (List (String × Json)) × Store :=
  runBackup net backupKeepDays (clock 0) store

/-! ## The HTTP handlers -/

/-- Split a character list at every semicolon, as
`cookies.split(";")` does (source line 112). -/
def splitSemi : List Char → List (List Char)
  | [] => [[]]
  | c :: cs =>
    if c = ';' then [] :: splitSemi cs
    else
      match splitSemi cs with
      | [] => [[c]]
      | p :: ps => (c :: p) :: ps

/-- JavaScript `String.prototype.trim` over a character list. -/
def trimChars (cs : List Char) : List Char :=
  ((cs.dropWhile isWsChar).reverse.dropWhile isWsChar).reverse

/-- When `key` is a leading run of `cs`, the remainder after it; this
combines the `startsWith` test and the `substring(length)` extraction of
source lines 114-115. -/
def matchKey : List Char → List Char → Option (List Char)
  | [], rest => some rest
  | _ :: _, [] => none
  | k :: ks, c :: cs => if c = k then matchKey ks cs else none

/-- First cookie part carrying `auth_token=`, with the prefix removed. -/
def findAuthToken : List (List Char) → Option String
  | [] => none
  | p :: ps =>
    match matchKey "auth_token=".toList p with
    | some rest => some rest.asString
    | none => findAuthToken ps

/-- `getTokenFromRequest` (source lines 109-119): read the `cookie`
header, split on `;`, trim each part, return the value of the first
`auth_token=` part. -/
def getTokenFromRequest (cookieHeader : Option String) : Option String :=
  match cookieHeader with
  | none => none
  | some c => findAuthToken ((splitSemi c.toList).map trimChars)

/-- `verifyToken` (source lines 105-107): strict equality of the cookie
token (possibly `null`) with the admin password hash. -/
def verifyToken (token : Option String) (expectedHash : String) : Bool :=
  token == some expectedHash

/-- An HTTP response sent back by the worker. -/
structure HttpReply where
  status : Nat
  body : String
  headers : List (String × String)
deriving DecidableEq

/-- The `Response("Unauthorized", { status: 401 })` of lines 383, 398
and 423. -/
def unauthorizedReply : HttpReply :=
  ⟨401, "Unauthorized", []⟩

/-- The `/list` handler (source lines 378-390): after the cookie check,
`SELECT id, date, LENGTH(content) AS size FROM comments_backup ORDER BY
id DESC`, serialised with `Response.json`. -/
def handleList (store : Store) (adminPasswordHash : String)
    (cookieHeader : Option String) : HttpReply :=
  if verifyToken (getTokenFromRequest cookieHeader) adminPasswordHash then
    let results := (store.rows.insertionSort (fun a b => b.id ≤ a.id)).map
      (fun r => Json.obj
        [("id", .num r.id), ("date", .str r.date), ("size", .num r.content.length)])
    ⟨200, Json.stringify (.arr results), [("Content-Type", "application/json")]⟩
  else unauthorizedReply

/-- The `/download/` handler (source lines 393-415): after the cookie
check, `SELECT content, date FROM comments_backup WHERE id = ?` and
either the stored content with an attachment disposition naming
`twikoo-comment-<date>.json`, or a 404. -/
def handleDownload (store : Store) (adminPasswordHash : String)
    (cookieHeader : Option String) (id : Nat) : HttpReply :=
  if verifyToken (getTokenFromRequest cookieHeader) adminPasswordHash then
    match store.rows.find? (fun r => r.id == id) with
    | some row =>
      ⟨200, row.content,
        [("Content-Type", "application/json"),
         ("Content-Disposition",
          "attachment; filename=\"twikoo-comment-" ++ row.date ++ ".json\"")]⟩
    | none => ⟨404, "not found", []⟩
  else unauthorizedReply

/-- The `/backup` handler (source lines 418-434): after the cookie
check, `TWIKOO_COMMENT_BACKUP.create()`; its outcome (the instance id,
or a thrown error) is a parameter. The boolean records whether a
workflow instance was created; when the cookie check fails, `create()`
is never reached. -/
def handleBackup (adminPasswordHash : String) (cookieHeader : Option String)
    (createResult : Except String String) : HttpReply × Bool :=
  if verifyToken (getTokenFromRequest cookieHeader) adminPasswordHash then
    match createResult with
    | .ok instId =>
      (⟨200, Json.stringify (.obj [("msg", .str "twikoo备份已启动"), ("id", .str instId)]),
        []⟩, true)
    | .error _ => (⟨500, "备份失败", []⟩, false)
  else (unauthorizedReply, false)

/-- Date of the most recently inserted row, used to state that repeated
executions of the persist step write the same date. -/
def lastRowDate (s : Store) : Option String :=
  s.rows.getLast?.map BackupRow.date

/-! ## Concrete data used by witnesses and counterexamples -/

/-- Store of the retention scenario: ids 10-13, where the smallest id
deliberately carries the latest capture date, so the scenario also shows
that pruning ignores dates. -/
def scenarioRows : List BackupRow :=
  [⟨10, "2026-01-04", "a"⟩, ⟨11, "2026-01-03", "b"⟩,
   ⟨12, "2026-01-02", "c"⟩, ⟨13, "2026-01-01", "d"⟩]

/-- Four rows with ascending ids for the configuration counterexample. -/
def demoFourRows : List BackupRow :=
  [⟨1, "2026-01-01", "a"⟩, ⟨2, "2026-01-02", "b"⟩,
   ⟨3, "2026-01-03", "c"⟩, ⟨4, "2026-01-04", "d"⟩]

/-- A fetch outcome whose response is `{code: 0, data: []}`. -/
def okNet : NetOutcome :=
  .resp ⟨true, 200, "OK", "ignored", some (.obj [("code", .num 0), ("data", .arr [])])⟩

/-! ## Retention lemmas

The prune statement keeps the rows whose id lies in the `LIMIT k` prefix
of the descending id list. The lemmas below characterise that prefix:
an id survives exactly when fewer than `k` stored ids exceed it. -/

/-- A descending sorted list without duplicates is strictly descending. -/
lemma pairwise_gt_of_sorted_nodup {l : List Nat}
    (hs : l.Sorted (· ≥ ·)) (hn : l.Nodup) : l.Pairwise (· > ·) :=
  (List.Pairwise.and hs hn).imp (fun h => lt_of_le_of_ne h.1 (Ne.symm h.2))

/-- Membership in the `k`-prefix of a strictly descending list holds
exactly when fewer than `k` elements are greater. -/
lemma mem_take_iff_countP : ∀ (l : List Nat), l.Pairwise (· > ·) → ∀ (k x : Nat), x ∈ l →
    (x ∈ l.take k ↔ l.countP (fun j => decide (x < j)) < k) := by
  intro l
  induction l with
  | nil => intro _ k x hx; exact absurd hx (List.not_mem_nil x)
  | cons a t ih =>
    intro hl k x hx
    obtain ⟨ha, ht⟩ := List.pairwise_cons.mp hl
    cases k with
    | zero => simp
    | succ k =>
      rcases List.mem_cons.mp hx with rfl | hxt
      · have hc0 : t.countP (fun j => decide (x < j)) = 0 := by
          apply List.countP_eq_zero.mpr
          intro j hj
          simpa using Nat.lt_asymm (ha j hj)
        simp [List.take_succ_cons, List.countP_cons, hc0]
      · have hxa : x < a := ha x hxt
        have hne : x ≠ a := Nat.ne_of_lt hxa
        rw [List.take_succ_cons, List.countP_cons]
        simp only [List.mem_cons, hne, false_or]
        rw [ih ht k x hxt]
        have hpa : decide (x < a) = true := decide_eq_true hxa
        simp only [hpa, if_true]
        omega

/-- The descending id list is a permutation of the id list. -/
lemma idsDesc_perm (rows : List BackupRow) :
    (idsDesc rows).Perm (rows.map BackupRow.id) :=
  List.perm_insertionSort _ _

/-- The descending id list is sorted. -/
lemma idsDesc_sorted (rows : List BackupRow) :
    (idsDesc rows).Sorted (· ≥ ·) :=
  List.sorted_insertionSort _ _

/-- With distinct ids, the descending id list is strictly descending. -/
lemma idsDesc_pairwise_gt (rows : List BackupRow)
    (h : (rows.map BackupRow.id).Nodup) : (idsDesc rows).Pairwise (· > ·) :=
  pairwise_gt_of_sorted_nodup (idsDesc_sorted rows)
    ((idsDesc_perm rows).nodup_iff.mpr h)

/-- Survivor characterisation of the prune step for a positive limit: a
stored row survives exactly when fewer than `k` stored ids exceed its
id, i.e. when its id is among the `k` largest. -/
lemma mem_cleanD1_iff {rows : List BackupRow} {k : Int}
    (hnd : (rows.map BackupRow.id).Nodup) (hk : 0 < k)
    {r : BackupRow} (hr : r ∈ rows) :
    r ∈ cleanD1 rows k ↔
      (rows.map BackupRow.id).countP (fun j => decide (r.id < j)) < k.toNat := by
  have hkneg : ¬ k < 0 := by omega
  rw [cleanD1, List.mem_filter]
  simp only [decide_eq_true_eq, selectIdsLimit, if_neg hkneg]
  have hmem : r.id ∈ idsDesc rows :=
    (idsDesc_perm rows).mem_iff.mpr (List.mem_map_of_mem _ hr)
  rw [mem_take_iff_countP (idsDesc rows) (idsDesc_pairwise_gt rows hnd) k.toNat r.id hmem]
  rw [(idsDesc_perm rows).countP_eq]
  simp [hr]

/-- Counting the members of the `k`-prefix inside a duplicate-free list
gives exactly `k`. -/
lemma countP_mem_take {l : List Nat} (hnd : l.Nodup) {k : Nat}
    (hk : k ≤ l.length) :
    l.countP (fun x => decide (x ∈ l.take k)) = k := by
  have hdisj := List.disjoint_take_drop hnd (le_refl k)
  have htake : (l.take k).countP (fun x => decide (x ∈ l.take k)) =
      (l.take k).length :=
    List.countP_eq_length.mpr (fun x hx => by simpa using hx)
  have hdrop : (l.drop k).countP (fun x => decide (x ∈ l.take k)) = 0 :=
    List.countP_eq_zero.mpr (fun x hx => by
      simpa using fun hmem => hdisj hmem hx)
  calc l.countP (fun x => decide (x ∈ l.take k))
      = (l.take k ++ l.drop k).countP (fun x => decide (x ∈ l.take k)) := by
        rw [List.take_append_drop]
    _ = (l.take k).length + 0 := by rw [List.countP_append, htake, hdrop]
    _ = k := by rw [List.length_take]; omega

/-- With distinct ids and a positive limit of at most the row count, the
prune step keeps exactly `k` rows. -/
lemma length_cleanD1 {rows : List BackupRow} {k : Int}
    (hnd : (rows.map BackupRow.id).Nodup) (hk : 0 < k)
    (hkn : k.toNat ≤ rows.length) :
    (cleanD1 rows k).length = k.toNat := by
  have hkneg : ¬ k < 0 := by omega
  rw [cleanD1, ← List.countP_eq_length_filter]
  have h1 : rows.countP (fun r => decide (r.id ∈ selectIdsLimit rows k)) =
      (rows.map BackupRow.id).countP (fun x => decide (x ∈ selectIdsLimit rows k)) := by
    rw [List.countP_map]; rfl
  rw [h1, ← (idsDesc_perm rows).countP_eq]
  have hlen : (idsDesc rows).length = rows.length := by
    rw [(idsDesc_perm rows).length_eq, List.length_map]
  have hnd2 : (idsDesc rows).Nodup := (idsDesc_perm rows).nodup_iff.mpr hnd
  simp only [selectIdsLimit, if_neg hkneg]
  rw [countP_mem_take hnd2 (by omega)]

/-- A negative limit (possible because `parseInt(BACKUP_KEEP_DAYS) || 3`
lets negative values through) selects every id, so the prune step
deletes nothing. -/
lemma cleanD1_neg {rows : List BackupRow} {k : Int} (hk : k < 0) :
    cleanD1 rows k = rows := by
  rw [cleanD1]
  apply List.filter_eq_self.mpr
  intro r hr
  simp only [decide_eq_true_eq, selectIdsLimit, if_pos hk]
  exact (idsDesc_perm rows).mem_iff.mpr (List.mem_map_of_mem _ hr)

/-- Mapping ids over a filter on ids commutes with filtering the mapped
list. -/
lemma map_id_filter (rows : List BackupRow) (S : List Nat) :
    (rows.filter (fun r => decide (r.id ∈ S))).map BackupRow.id =
      (rows.map BackupRow.id).filter (fun x => decide (x ∈ S)) := by
  induction rows with
  | nil => rfl
  | cons a t ih =>
    by_cases hmem : a.id ∈ S <;> simp [List.filter_cons, hmem, ih]

/-- The prune step selects by id only: two stores with the same id
sequence keep the same ids, whatever the dates and contents. -/
lemma cleanD1_map_id_congr {rows1 rows2 : List BackupRow} (k : Int)
    (h : rows1.map BackupRow.id = rows2.map BackupRow.id) :
    (cleanD1 rows1 k).map BackupRow.id = (cleanD1 rows2 k).map BackupRow.id := by
  have hsel : selectIdsLimit rows1 k = selectIdsLimit rows2 k := by
    simp only [selectIdsLimit, idsDesc, h]
  rw [cleanD1, cleanD1, hsel, map_id_filter, map_id_filter, h]

/-- The prune step returns a sublist of the rows it is given. -/
lemma cleanD1_subset {rows : List BackupRow} {k : Int} :
    ∀ r ∈ cleanD1 rows k, r ∈ rows := by
  intro r hr
  exact (List.mem_filter.mp hr).1

/-- The configured limit is never zero: `parseInt(x) || 3` replaces both
`NaN` and `0` by `3`, so the value is negative or positive. -/
lemma keepDaysOf_pos_or_neg (s : Option String) :
    keepDaysOf s < 0 ∨ 0 < keepDaysOf s := by
  rw [keepDaysOf]
  cases jsParseInt (envString s) with
  | none => right; norm_num
  | some v =>
    by_cases hv : v = 0
    · right; simp [hv]
    · simp only [if_neg hv]; omega

/-- A row whose id strictly dominates every other stored id survives the
prune step for any limit the configuration can produce. -/
lemma mem_cleanD1_of_max {rows : List BackupRow} {k : Int} {nrow : BackupRow}
    (hnd : ((rows ++ [nrow]).map BackupRow.id).Nodup)
    (hmax : ∀ r ∈ rows, r.id < nrow.id)
    (hk : k < 0 ∨ 0 < k) :
    nrow ∈ cleanD1 (rows ++ [nrow]) k := by
  have hmem : nrow ∈ rows ++ [nrow] :=
    List.mem_append_right _ (List.mem_singleton.mpr rfl)
  rcases hk with hneg | hpos
  · rw [cleanD1_neg hneg]; exact hmem
  · rw [mem_cleanD1_iff hnd hpos hmem]
    have hzero : ((rows ++ [nrow]).map BackupRow.id).countP
        (fun j => decide (nrow.id < j)) = 0 := by
      apply List.countP_eq_zero.mpr
      intro j hj
      simp only [List.map_append, List.map_cons, List.map_nil, List.mem_append,
        List.mem_singleton, List.mem_map] at hj
      rcases hj with ⟨r, hr, rfl⟩ | rfl
      · simpa using Nat.lt_asymm (hmax r hr)
      · simp
    rw [hzero]
    omega

/-- When a list holds exactly one row with the sought id, `find?`
returns it. -/
lemma find?_eq_of_unique {l : List BackupRow} {idv : Nat} {row : BackupRow}
    (hmem : row ∈ l) (hid : row.id = idv)
    (huniq : ∀ x ∈ l, x.id = idv → x = row) :
    l.find? (fun r => r.id == idv) = some row := by
  induction l with
  | nil => exact absurd hmem (List.not_mem_nil row)
  | cons a t ih =>
    by_cases ha : a.id = idv
    · have haeq : a = row := huniq a (List.mem_cons_self a t) ha
      subst haeq
      rw [List.find?_cons_of_pos _ (by simp [ha])]
    · rw [List.find?_cons_of_neg _ (by simp [ha])]
      apply ih
      · rcases List.mem_cons.mp hmem with rfl | h
        · exact absurd hid ha
        · exact h
      · intro x hx hxid
        exact huniq x (List.mem_cons_of_mem a hx) hxid

/-- The comparison `data.code !== 0` fails exactly on the JSON number
`0`. -/
lemma isCodeZero_iff (c : Option Json) :
    isCodeZero c = true ↔ c = some (.num 0) := by
  match c with
  | none => simp [isCodeZero]
  | some .null => simp [isCodeZero]
  | some (.bool b) => simp [isCodeZero]
  | some (.num n) =>
    constructor
    · intro h
      match n, h with
      | Int.ofNat 0, _ => rfl
    · intro h
      cases h
      rfl
  | some (.str s) => simp [isCodeZero]
  | some (.arr xs) => simp [isCodeZero]
  | some (.obj fs) => simp [isCodeZero]

/-- Inversion of a successful run: the returned record is the literal of
source line 85 and the final store is the freshly inserted row appended
and then pruned. -/
lemma runBackup_ok_inv {net : NetOutcome} {keep : Option String}
    {iso : String} {store : Store} {rec : List (String × Json)} {s' : Store}
    (h : runBackup net keep iso store = (.ok rec, s')) :
    rec = [("status", Json.str "success"), ("date", .str (dateStrOf iso)),
           ("savedRows", .num 1)] ∧
    ∃ j, fetchComments net = .ok (some j) ∧
      s' = ⟨cleanD1 (store.rows ++ [⟨store.nextId, dateStrOf iso, Json.stringify j⟩])
              (keepDaysOf keep), store.nextId + 1⟩ := by
  cases hfc : fetchComments net with
  | error e => simp [runBackup, hfc] at h
  | ok payload =>
    cases payload with
    | none => simp [runBackup, hfc] at h
    | some j =>
      simp only [runBackup, hfc, saveToD1, insertRow, Prod.mk.injEq,
        Except.ok.injEq] at h
      obtain ⟨hrec, hs⟩ := h
      exact ⟨hrec.symm, j, rfl, hs.symm⟩

/-- Inversion of a failed run: the store is untouched. -/
lemma runBackup_error_inv {net : NetOutcome} {keep : Option String}
    {iso : String} {store : Store} {e : RunFailure} {s' : Store}
    (h : runBackup net keep iso store = (.error e, s')) : s' = store := by
  cases hfc : fetchComments net with
  | error e' =>
    simp only [runBackup, hfc, Prod.mk.injEq] at h
    exact h.2.symm
  | ok payload =>
    cases payload with
    | none =>
      simp only [runBackup, hfc, Prod.mk.injEq] at h
      exact h.2.symm
    | some j => simp [runBackup, hfc] at h

/-! ## Claims -/

/-- C1: for a store with distinct ids and a configured positive
`keepCount` of at most the row count, the prune step keeps exactly `k`
rows; a row survives exactly when fewer than `k` stored ids exceed its
id (so precisely the `n - k` rows with the smallest ids are deleted);
and the kept id set depends only on the id sequence, never on the
capture dates or contents. -/
theorem cleanD1_keeps_k_largest (rows : List BackupRow) (k : Int)
    (hnd : (rows.map BackupRow.id).Nodup) (hk : 0 < k)
    (hkn : k.toNat ≤ rows.length) :
    (cleanD1 rows k).length = k.toNat ∧
    rows.length - (cleanD1 rows k).length = rows.length - k.toNat ∧
    (∀ r ∈ rows, r ∈ cleanD1 rows k ↔
      (rows.map BackupRow.id).countP (fun j => decide (r.id < j)) < k.toNat) ∧
    (∀ rows2 : List BackupRow, rows2.map BackupRow.id = rows.map BackupRow.id →
      (cleanD1 rows2 k).map BackupRow.id = (cleanD1 rows k).map BackupRow.id) := by
  refine ⟨length_cleanD1 hnd hk hkn, ?_, ?_, ?_⟩
  · rw [length_cleanD1 hnd hk hkn]
  · intro r hr; exact mem_cleanD1_iff hnd hk hr
  · intro rows2 h2; exact cleanD1_map_id_congr k h2

/-- C1 witness: the scenario of the specification. The store holds ids
10-13 and `keepCount = 3`; pruning deletes only id 10 (even though that
row carries the latest capture date) and keeps 11, 12, 13. -/
theorem cleanD1_keeps_k_largest_witness :
    ((scenarioRows.map BackupRow.id).Nodup ∧ (0 : Int) < 3 ∧
      (3 : Int).toNat ≤ scenarioRows.length) ∧
    (cleanD1 scenarioRows 3).length = (3 : Int).toNat ∧
    cleanD1 scenarioRows 3 =
      [⟨11, "2026-01-03", "b"⟩, ⟨12, "2026-01-02", "c"⟩, ⟨13, "2026-01-01", "d"⟩] ∧
    (⟨10, "2026-01-04", "a"⟩ : BackupRow) ∉ cleanD1 scenarioRows 3 :=
  ⟨⟨by decide, by decide, by decide⟩,
   (cleanD1_keeps_k_largest scenarioRows 3 (by decide) (by decide) (by decide)).1,
   by decide, by decide⟩

/-- C2 counterexample: the claim says a configured value that is ≤ 0
behaves as `keepCount = 3`, but `parseInt("-2") || 3` is `-2` (negative
numbers are truthy), and a negative `LIMIT` makes the prune delete
nothing, while `keepCount = 3` would delete the oldest of four rows. -/
theorem keepDays_negative_counterexample :
    keepDaysOf (some "-2") = -2 ∧
    keepDaysOf (some "-2") ≠ 3 ∧
    cleanD1 demoFourRows (keepDaysOf (some "-2")) = demoFourRows ∧
    cleanD1 demoFourRows 3 =
      [⟨2, "2026-01-02", "b"⟩, ⟨3, "2026-01-03", "c"⟩, ⟨4, "2026-01-04", "d"⟩] := by
  refine ⟨by decide, by decide, by decide, by decide⟩

/-- C2 amended: an unset, non-numeric or zero `keepCount` behaves as
`3`; a configured negative value is passed through unchanged to the
prune step, where a negative limit deletes nothing. -/
theorem keepDays_default_amended :
    (∀ s : Option String, jsParseInt (envString s) = none → keepDaysOf s = 3) ∧
    (∀ s : Option String, jsParseInt (envString s) = some 0 → keepDaysOf s = 3) ∧
    keepDaysOf none = 3 ∧
    (∀ (s : Option String) (v : Int), jsParseInt (envString s) = some v → v ≠ 0 →
      keepDaysOf s = v) ∧
    (∀ (rows : List BackupRow) (k : Int), k < 0 → cleanD1 rows k = rows) := by
  refine ⟨?_, ?_, by decide, ?_, ?_⟩
  · intro s h; rw [keepDaysOf, h]
  · intro s h; rw [keepDaysOf, h]; simp
  · intro s v h hv; rw [keepDaysOf, h]; simp [hv]
  · intro rows k hk; exact cleanD1_neg hk

/-- C2 amended witness: a non-numeric value and zero default to 3, a
positive value is used as configured, and a negative value reaches the
prune step unchanged and deletes nothing. -/
theorem keepDays_default_amended_witness :
    keepDaysOf (some "abc") = 3 ∧
    keepDaysOf (some "0") = 3 ∧
    keepDaysOf (some "7") = 7 ∧
    cleanD1 demoFourRows (-2) = demoFourRows :=
  ⟨keepDays_default_amended.1 (some "abc") (by decide),
   keepDays_default_amended.2.1 (some "0") (by decide),
   keepDays_default_amended.2.2.2.1 (some "7") 7 (by decide) (by decide),
   keepDays_default_amended.2.2.2.2 demoFourRows (-2) (by decide)⟩

/-- C3: whenever the fetch step fails, the whole run fails with that
error and the store is returned unchanged, so no row is written. -/
theorem run_fetch_failure (net : NetOutcome) (keep : Option String)
    (iso : String) (store : Store) (e : FetchError)
    (h : fetchComments net = .error e) :
    runBackup net keep iso store = (.error (.fetchFailed e), store) ∧
    (runBackup net keep iso store).2.rows = store.rows := by
  constructor
  · simp [runBackup, h]
  · simp [runBackup, h]

/-- C3 witness: a network-level failure leaves a four-row store exactly
as it was and surfaces the transport error. -/
theorem run_fetch_failure_witness :
    runBackup (.netFail "connection reset") (some "3")
        "2026-01-01T00:00:00.000Z" ⟨demoFourRows, 5⟩ =
      (.error (.fetchFailed (.transportError "connection reset")), ⟨demoFourRows, 5⟩) :=
  (run_fetch_failure (.netFail "connection reset") (some "3")
    "2026-01-01T00:00:00.000Z" ⟨demoFourRows, 5⟩ (.transportError "connection reset") rfl).1

/-- C4: the fetch step classifies failures in the fixed source order:
a network-level failure gives `transportError`; otherwise a non-success
status gives `remoteHttpError` with status, status text and body
(whatever the body holds); otherwise an unparseable body gives
`malformedResponseError` with the body; otherwise a `code` property
other than the number `0` gives `remoteApiError` carrying the code and
message properties. The last conjunct is the concrete scenario
`{code: 1, message: "bad token"}`. -/
theorem fetch_error_classification :
    (∀ msg, fetchComments (.netFail msg) = .error (.transportError msg)) ∧
    (∀ r : HttpResponse, r.ok = false →
      fetchComments (.resp r) = .error (.remoteHttpError r.status r.statusText r.body)) ∧
    (∀ r : HttpResponse, r.ok = true → r.parsed = none →
      fetchComments (.resp r) = .error (.malformedResponseError r.body)) ∧
    (∀ (r : HttpResponse) (data : Json) (c m : Option Json),
      r.ok = true → r.parsed = some data →
      jsGetProp data "code" = some c → c ≠ some (.num 0) →
      jsGetProp data "message" = some m →
      fetchComments (.resp r) = .error (.remoteApiError c m)) ∧
    (∀ r : HttpResponse, r.ok = true →
      r.parsed = some (.obj [("code", .num 1), ("message", .str "bad token")]) →
      fetchComments (.resp r) =
        .error (.remoteApiError (some (.num 1)) (some (.str "bad token")))) := by
  refine ⟨fun msg => rfl, ?_, ?_, ?_, ?_⟩
  · intro r h
    simp [fetchComments, h]
  · intro r h1 h2
    simp [fetchComments, h1, h2]
  · intro r data c m h1 h2 h3 h4 h5
    have hc : isCodeZero c = false := by
      rw [← Bool.not_eq_true, isCodeZero_iff]
      exact h4
    simp [fetchComments, h1, h2, h3, hc, h5]
  · intro r h1 h2
    simp only [fetchComments, h1, if_true, h2]
    rfl

/-- C4 witness: one concrete response per classification branch. -/
theorem fetch_error_classification_witness :
    fetchComments (.netFail "dns failure") = .error (.transportError "dns failure") ∧
    fetchComments (.resp ⟨false, 500, "Internal Server Error", "oops", none⟩) =
      .error (.remoteHttpError 500 "Internal Server Error" "oops") ∧
    fetchComments (.resp ⟨true, 200, "OK", "<html>", none⟩) =
      .error (.malformedResponseError "<html>") ∧
    fetchComments (.resp ⟨true, 200, "OK", "x",
        some (.obj [("code", .num 1), ("message", .str "bad token")])⟩) =
      .error (.remoteApiError (some (.num 1)) (some (.str "bad token"))) :=
  ⟨fetch_error_classification.1 "dns failure",
   fetch_error_classification.2.1 _ rfl,
   fetch_error_classification.2.2.1 _ rfl rfl,
   fetch_error_classification.2.2.2.2 _ rfl rfl⟩

/-- C6 counterexample: a concrete successful run returns the record
`{status: "success", date, savedRows: 1}`; it has no `rowsWritten`
field, so the claimed result record `{status, date, rowsWritten: 1}` is
not what the code returns. -/
theorem run_savedRows_counterexample :
    (runBackup okNet (some "3") "2026-01-01T00:00:00.000Z" ⟨[], 1⟩).1 =
      .ok [("status", Json.str "success"), ("date", .str "2026-01-01"),
           ("savedRows", .num 1)] ∧
    getField [("status", Json.str "success"), ("date", .str "2026-01-01"),
      ("savedRows", .num 1)] "rowsWritten" = none ∧
    getField [("status", Json.str "success"), ("date", .str "2026-01-01"),
      ("savedRows", .num 1)] "savedRows" = some (.num 1) :=
  ⟨rfl, rfl, rfl⟩

/-- C6 amended: every successful run returns the record
`{status: "success", date, savedRows: 1}` (the rows-written count is
named `savedRows`, not `rowsWritten`), and its final store is the
starting rows plus exactly one freshly inserted row, then pruned; a
failed run returns the store unchanged, producing zero rows. -/
theorem run_outcome (net : NetOutcome) (keep : Option String)
    (iso : String) (store : Store) :
    (∀ (rec : List (String × Json)) (s' : Store),
      runBackup net keep iso store = (.ok rec, s') →
      getField rec "status" = some (.str "success") ∧
      getField rec "date" = some (.str (dateStrOf iso)) ∧
      getField rec "savedRows" = some (.num 1) ∧
      getField rec "rowsWritten" = none ∧
      ∃ j, fetchComments net = .ok (some j) ∧
        s' = ⟨cleanD1 (store.rows ++ [⟨store.nextId, dateStrOf iso, Json.stringify j⟩])
                (keepDaysOf keep), store.nextId + 1⟩) ∧
    (∀ (e : RunFailure) (s' : Store),
      runBackup net keep iso store = (.error e, s') → s' = store) := by
  constructor
  · intro rec s' h
    obtain ⟨hrec, j, hfc, hs⟩ := runBackup_ok_inv h
    subst hrec
    exact ⟨rfl, rfl, rfl, rfl, j, hfc, hs⟩
  · intro e s' h
    exact runBackup_error_inv h

/-- C6 witness: the success implication applied to a concrete run on an
empty store, and the failure implication applied to a failing run. -/
theorem run_outcome_witness :
    getField [("status", Json.str "success"), ("date", .str "2026-01-01"),
      ("savedRows", .num 1)] "rowsWritten" = none ∧
    (⟨demoFourRows, 5⟩ : Store) = ⟨demoFourRows, 5⟩ :=
  ⟨((run_outcome okNet (some "3") "2026-01-01T00:00:00.000Z" ⟨[], 1⟩).1
      [("status", Json.str "success"), ("date", .str "2026-01-01"), ("savedRows", .num 1)]
      ⟨cleanD1 [⟨1, "2026-01-01", Json.stringify (.arr [])⟩] 3, 2⟩ rfl).2.2.2.1,
   (run_outcome (.netFail "down") none "2026-01-01T00:00:00.000Z" ⟨demoFourRows, 5⟩).2
     (.fetchFailed (.transportError "down")) ⟨demoFourRows, 5⟩ rfl⟩

/-- C7: the capture date is derived from the single clock read at run
start: two runs whose clocks agree at the first read behave identically
whatever the clock returns later; the persist step body writes the
captured date whatever store it is re-executed against; and the date a
successful run reports is the 10-character date of the run-start
timestamp. -/
theorem capture_date_once :
    (∀ clock1 clock2 : Nat → String, ∀ (net : NetOutcome) (keep : Option String)
      (store : Store), clock1 0 = clock2 0 →
      runBackupClocked clock1 net keep store = runBackupClocked clock2 net keep store) ∧
    (∀ (dateStr content : String) (s1 s2 : Store),
      lastRowDate (saveToD1 dateStr content s1) = some dateStr ∧
      lastRowDate (saveToD1 dateStr content s2) = some dateStr) ∧
    (∀ (clock : Nat → String) (net : NetOutcome) (keep : Option String)
      (store : Store) (rec : List (String × Json)) (s' : Store),
      runBackupClocked clock net keep store = (.ok rec, s') →
      getField rec "date" = some (.str (dateStrOf (clock 0)))) := by
  refine ⟨?_, ?_, ?_⟩
  · intro clock1 clock2 net keep store h
    rw [runBackupClocked, runBackupClocked, h]
  · intro dateStr content s1 s2
    constructor <;> simp [lastRowDate, saveToD1, insertRow]
  · intro clock net keep store rec s' h
    obtain ⟨hrec, _, _, _⟩ := runBackup_ok_inv h
    subst hrec
    rfl

/-- C7 witness: two clocks that agree at run start but diverge at every
later read produce identical runs; the persist body writes the same
date against two different stores; and a concrete successful run
reports the date of the first clock read. -/
theorem capture_date_once_witness :
    runBackupClocked (fun _ => "2026-01-01T00:00:00.000Z") okNet (some "3") ⟨[], 1⟩ =
      runBackupClocked (fun n => if n = 0 then "2026-01-01T00:00:00.000Z"
        else "2026-01-02T09:00:00.000Z") okNet (some "3") ⟨[], 1⟩ ∧
    (lastRowDate (saveToD1 "2026-01-01" "[]" ⟨[], 1⟩) = some "2026-01-01" ∧
      lastRowDate (saveToD1 "2026-01-01" "[]" ⟨demoFourRows, 5⟩) = some "2026-01-01") ∧
    getField [("status", Json.str "success"), ("date", .str "2026-01-01"),
      ("savedRows", .num 1)] "date" =
      some (.str (dateStrOf "2026-01-01T00:00:00.000Z")) :=
  ⟨capture_date_once.1 (fun _ => "2026-01-01T00:00:00.000Z")
      (fun n => if n = 0 then "2026-01-01T00:00:00.000Z" else "2026-01-02T09:00:00.000Z")
      okNet (some "3") ⟨[], 1⟩ (by decide),
   capture_date_once.2.1 "2026-01-01" "[]" ⟨[], 1⟩ ⟨demoFourRows, 5⟩,
   capture_date_once.2.2 (fun _ => "2026-01-01T00:00:00.000Z") okNet (some "3") ⟨[], 1⟩
     [("status", Json.str "success"), ("date", .str "2026-01-01"), ("savedRows", .num 1)]
     ⟨cleanD1 [⟨1, "2026-01-01", Json.stringify (.arr [])⟩] 3, 2⟩ rfl⟩

/-- C5: for a remote response `{code: 0, data: ...}`, the fetch step
returns the `data` value unchanged; the run stores exactly its
serialisation as the content of the freshly inserted row; that row
survives the prune (its id is the largest); and downloading it returns
that same stored content verbatim, with the attachment filename built
from the capture date. The payload received, stored and downloaded is
therefore the same byte sequence, namely the serialisation of `data`. -/
theorem fetch_persist_download_roundtrip
    (r : HttpResponse) (data payload : Json) (keep : Option String)
    (iso : String) (store : Store) (hash : String) (cookie : Option String)
    (hok : r.ok = true) (hparsed : r.parsed = some data)
    (hcode : jsGetProp data "code" = some (some (.num 0)))
    (hdata : jsGetProp data "data" = some (some payload))
    (hnd : (store.rows.map BackupRow.id).Nodup)
    (hfresh : ∀ row ∈ store.rows, row.id < store.nextId)
    (htok : getTokenFromRequest cookie = some hash) :
    fetchComments (.resp r) = .ok (some payload) ∧
    runBackup (.resp r) keep iso store =
      (.ok [("status", .str "success"), ("date", .str (dateStrOf iso)),
            ("savedRows", .num 1)],
       ⟨cleanD1 (store.rows ++ [⟨store.nextId, dateStrOf iso, Json.stringify payload⟩])
          (keepDaysOf keep), store.nextId + 1⟩) ∧
    (⟨store.nextId, dateStrOf iso, Json.stringify payload⟩ : BackupRow) ∈
      cleanD1 (store.rows ++ [⟨store.nextId, dateStrOf iso, Json.stringify payload⟩])
        (keepDaysOf keep) ∧
    handleDownload
      ⟨cleanD1 (store.rows ++ [⟨store.nextId, dateStrOf iso, Json.stringify payload⟩])
         (keepDaysOf keep), store.nextId + 1⟩ hash cookie store.nextId =
      ⟨200, Json.stringify payload,
       [("Content-Type", "application/json"),
        ("Content-Disposition",
         "attachment; filename=\"twikoo-comment-" ++ dateStrOf iso ++ ".json\"")]⟩ := by
  have hfetch : fetchComments (.resp r) = .ok (some payload) := by
    simp [fetchComments, hok, hparsed, hcode, hdata, isCodeZero]
  have hrun : runBackup (.resp r) keep iso store =
      (.ok [("status", .str "success"), ("date", .str (dateStrOf iso)),
            ("savedRows", .num 1)],
       ⟨cleanD1 (store.rows ++ [⟨store.nextId, dateStrOf iso, Json.stringify payload⟩])
          (keepDaysOf keep), store.nextId + 1⟩) := by
    simp [runBackup, hfetch, saveToD1, insertRow]
  have hnd2 : ((store.rows ++
      [(⟨store.nextId, dateStrOf iso, Json.stringify payload⟩ : BackupRow)]).map
        BackupRow.id).Nodup := by
    rw [List.map_append]
    apply List.Nodup.append hnd (by simp)
    intro x hx hx2
    simp only [List.map_cons, List.map_nil, List.mem_singleton] at hx2
    obtain ⟨row, hrow, hxid⟩ := List.mem_map.mp hx
    exact absurd (hx2 ▸ hxid ▸ hfresh row hrow) (Nat.lt_irrefl _)
  have hmem : (⟨store.nextId, dateStrOf iso, Json.stringify payload⟩ : BackupRow) ∈
      cleanD1 (store.rows ++ [⟨store.nextId, dateStrOf iso, Json.stringify payload⟩])
        (keepDaysOf keep) :=
    mem_cleanD1_of_max hnd2 hfresh (keepDaysOf_pos_or_neg keep)
  have hfind : (cleanD1 (store.rows ++
      [(⟨store.nextId, dateStrOf iso, Json.stringify payload⟩ : BackupRow)])
        (keepDaysOf keep)).find? (fun row => row.id == store.nextId) =
      some ⟨store.nextId, dateStrOf iso, Json.stringify payload⟩ := by
    apply find?_eq_of_unique hmem rfl
    intro x hx hxid
    have hx2 := cleanD1_subset x hx
    rcases List.mem_append.mp hx2 with hleft | hright
    · exact absurd (hxid ▸ hfresh x hleft) (Nat.lt_irrefl _)
    · exact List.mem_singleton.mp hright
  have hv : verifyToken (getTokenFromRequest cookie) hash = true := by
    rw [htok, verifyToken]
    simp
  refine ⟨hfetch, hrun, hmem, ?_⟩
  simp [handleDownload, hv, hfind]

/-- C5 witness: a concrete response `{code: 0, data: []}` against an
empty store; the stored and downloaded content are both the
serialisation of the received `data` value. -/
theorem fetch_persist_download_roundtrip_witness :
    fetchComments okNet = .ok (some (.arr [])) ∧
    runBackup okNet (some "3") "2026-01-01T00:00:00.000Z" ⟨[], 1⟩ =
      (.ok [("status", .str "success"), ("date", .str (dateStrOf "2026-01-01T00:00:00.000Z")),
            ("savedRows", .num 1)],
       ⟨cleanD1 ([] ++ [⟨1, dateStrOf "2026-01-01T00:00:00.000Z", Json.stringify (.arr [])⟩]) 
          (keepDaysOf (some "3")), 2⟩) ∧
    (⟨1, dateStrOf "2026-01-01T00:00:00.000Z", Json.stringify (.arr [])⟩ : BackupRow) ∈
      cleanD1 ([] ++ [⟨1, dateStrOf "2026-01-01T00:00:00.000Z", Json.stringify (.arr [])⟩])
        (keepDaysOf (some "3")) ∧
    handleDownload
      ⟨cleanD1 ([] ++ [⟨1, dateStrOf "2026-01-01T00:00:00.000Z", Json.stringify (.arr [])⟩])
         (keepDaysOf (some "3")), 2⟩ "h" (some "auth_token=h") 1 =
      ⟨200, Json.stringify (.arr []),
       [("Content-Type", "application/json"),
        ("Content-Disposition",
         "attachment; filename=\"twikoo-comment-" ++ dateStrOf "2026-01-01T00:00:00.000Z"
           ++ ".json\"")]⟩ :=
  fetch_persist_download_roundtrip
    ⟨true, 200, "OK", "ignored", some (.obj [("code", .num 0), ("data", .arr [])])⟩
    (.obj [("code", .num 0), ("data", .arr [])]) (.arr []) (some "3")
    "2026-01-01T00:00:00.000Z" ⟨[], 1⟩ "h" (some "auth_token=h")
    rfl rfl rfl rfl (by decide) (by simp) (by decide)

/-- C8: for an authorised request, the download handler returns the
stored content with the attachment filename `twikoo-comment-<date>.json`
when a row with the requested id exists, and the 404 reply `not found`
when none does; the 200 outcome happens exactly when such a row
exists. -/
theorem download_by_id (store : Store) (hash : String) (cookie : Option String)
    (idv : Nat) (htok : getTokenFromRequest cookie = some hash) :
    (∀ row : BackupRow, store.rows.find? (fun r => r.id == idv) = some row →
      handleDownload store hash cookie idv =
        ⟨200, row.content,
         [("Content-Type", "application/json"),
          ("Content-Disposition",
           "attachment; filename=\"twikoo-comment-" ++ row.date ++ ".json\"")]⟩) ∧
    (store.rows.find? (fun r => r.id == idv) = none →
      handleDownload store hash cookie idv = ⟨404, "not found", []⟩) ∧
    ((∃ row ∈ store.rows, row.id = idv) ↔
      (handleDownload store hash cookie idv).status = 200) := by
  have hv : verifyToken (getTokenFromRequest cookie) hash = true := by
    rw [htok, verifyToken]
    simp
  refine ⟨?_, ?_, ?_⟩
  · intro row h
    simp [handleDownload, hv, h]
  · intro h
    simp [handleDownload, hv, h]
  · constructor
    · rintro ⟨row, hrow, hid⟩
      have hsome : (store.rows.find? (fun r => r.id == idv)).isSome :=
        List.find?_isSome.mpr ⟨row, hrow, by simp [hid]⟩
      obtain ⟨row', hrow'⟩ := Option.isSome_iff_exists.mp hsome
      simp [handleDownload, hv, hrow']
    · intro h200
      cases hfind : store.rows.find? (fun r => r.id == idv) with
      | none =>
        rw [handleDownload] at h200
        simp [hv, hfind] at h200
      | some row =>
        refine ⟨row, List.mem_of_find?_eq_some hfind, ?_⟩
        have := List.find?_some hfind
        simpa using this

/-- C8 witness: with one stored row of id 7, downloading id 7 returns
its content and filename, and downloading id 9 returns the 404 reply. -/
theorem download_by_id_witness :
    handleDownload ⟨[⟨7, "2026-01-02", "[1]"⟩], 8⟩ "h" (some "auth_token=h") 7 =
      ⟨200, "[1]",
       [("Content-Type", "application/json"),
        ("Content-Disposition", "attachment; filename=\"twikoo-comment-2026-01-02.json\"")]⟩ ∧
    handleDownload ⟨[⟨7, "2026-01-02", "[1]"⟩], 8⟩ "h" (some "auth_token=h") 9 =
      ⟨404, "not found", []⟩ :=
  ⟨by
    have h := (download_by_id ⟨[⟨7, "2026-01-02", "[1]"⟩], 8⟩ "h"
      (some "auth_token=h") 7 (by decide)).1 ⟨7, "2026-01-02", "[1]"⟩ (by decide)
    simpa using h,
   (download_by_id ⟨[⟨7, "2026-01-02", "[1]"⟩], 8⟩ "h"
      (some "auth_token=h") 9 (by decide)).2.1 (by decide)⟩

/-- C9: a request to the list, download or manual-backup endpoint whose
cookie does not carry the admin password hash as `auth_token` receives
the constant 401 `Unauthorized` reply; the reply carries no store data,
and for the backup endpoint no workflow instance is created, so the
snapshot store is untouched. -/
theorem unauthorized_requests (store : Store) (hash : String)
    (cookie : Option String) (idv : Nat) (createResult : Except String String)
    (htok : getTokenFromRequest cookie ≠ some hash) :
    handleList store hash cookie = unauthorizedReply ∧
    handleDownload store hash cookie idv = unauthorizedReply ∧
    handleBackup hash cookie createResult = (unauthorizedReply, false) := by
  have hv : verifyToken (getTokenFromRequest cookie) hash = false := by
    rw [verifyToken]
    simpa using htok
  exact ⟨by simp [handleList, hv], by simp [handleDownload, hv], by simp [handleBackup, hv]⟩

/-- C9 witness: a cookieless request and a request with a wrong token
are both rejected by all three endpoints, and the backup endpoint does
not create a workflow instance even though the substrate could. -/
theorem unauthorized_requests_witness :
    (handleList ⟨demoFourRows, 5⟩ "h" none = unauthorizedReply ∧
      handleDownload ⟨demoFourRows, 5⟩ "h" none 1 = unauthorizedReply ∧
      handleBackup "h" none (.ok "instance-1") = (unauthorizedReply, false)) ∧
    (handleList ⟨demoFourRows, 5⟩ "h" (some "auth_token=wrong") = unauthorizedReply ∧
      handleDownload ⟨demoFourRows, 5⟩ "h" (some "auth_token=wrong") 1 = unauthorizedReply ∧
      handleBackup "h" (some "auth_token=wrong") (.ok "instance-1") =
        (unauthorizedReply, false)) :=
  ⟨unauthorized_requests ⟨demoFourRows, 5⟩ "h" none 1 (.ok "instance-1") (by decide),
   unauthorized_requests ⟨demoFourRows, 5⟩ "h" (some "auth_token=wrong") 1
     (.ok "instance-1") (by decide)⟩

/-- C10: a successfully parsed response whose `code` property evaluates
to `undefined` fails through the remote-API-error branch (the strict
comparison `code !== 0` holds for `undefined`), carrying `undefined` as
the code, not through the malformed-response branch; and the run leaves
the store unchanged. -/
theorem missing_code_field (r : HttpResponse) (data : Json) (m : Option Json)
    (keep : Option String) (iso : String) (store : Store)
    (hok : r.ok = true) (hparsed : r.parsed = some data)
    (hcode : jsGetProp data "code" = some none)
    (hmsg : jsGetProp data "message" = some m) :
    fetchComments (.resp r) = .error (.remoteApiError none m) ∧
    (∀ b, (FetchError.remoteApiError none m) ≠ .malformedResponseError b) ∧
    runBackup (.resp r) keep iso store =
      (.error (.fetchFailed (.remoteApiError none m)), store) := by
  have hfetch : fetchComments (.resp r) = .error (.remoteApiError none m) := by
    simp [fetchComments, hok, hparsed, hcode, hmsg, isCodeZero]
  refine ⟨hfetch, fun b h => FetchError.noConfusion h, ?_⟩
  simp [runBackup, hfetch]

/-- C10 witness: the response `{message: "no code"}` parses, its `code`
property is `undefined`, and the run fails through the remote-API-error
branch with the store unchanged. -/
theorem missing_code_field_witness :
    fetchComments (.resp ⟨true, 200, "OK", "x", some (.obj [("message", .str "no code")])⟩) =
      .error (.remoteApiError none (some (.str "no code"))) ∧
    runBackup (.resp ⟨true, 200, "OK", "x", some (.obj [("message", .str "no code")])⟩)
        (some "3") "2026-01-01T00:00:00.000Z" ⟨demoFourRows, 5⟩ =
      (.error (.fetchFailed (.remoteApiError none (some (.str "no code")))),
       ⟨demoFourRows, 5⟩) :=
  ⟨(missing_code_field _ (.obj [("message", .str "no code")]) (some (.str "no code"))
      (some "3") "2026-01-01T00:00:00.000Z" ⟨demoFourRows, 5⟩ rfl rfl rfl rfl).1,
   (missing_code_field _ (.obj [("message", .str "no code")]) (some (.str "no code"))
      (some "3") "2026-01-01T00:00:00.000Z" ⟨demoFourRows, 5⟩ rfl rfl rfl rfl).2.2⟩
